import Mathlib

/- Shallow embedding of the EPUB maintenance scripts of this repository:
   `epub_fixer.py` (filename normalization, tree organization, manifest and
   spine generation, archive packaging) and `manifest_audit.py` (the
   manifest/spine audit).  Python strings are modelled as Lean `String`s
   (with proofs working over their underlying `List Char`), the filesystem
   as explicit lists of relative paths, and Python exception handling as
   explicit result types. -/

namespace BookFiles

/-! ## Decimal rendering of natural numbers (Python `str`/format of an int) -/

/-- A single decimal digit rendered as a character, as Python renders digits. -/
def digitChar : Nat → Char
  | 0 => '0'
  | 1 => '1'
  | 2 => '2'
  | 3 => '3'
  | 4 => '4'
  | 5 => '5'
  | 6 => '6'
  | 7 => '7'
  | 8 => '8'
  | 9 => '9'
  | _ => '?'

/-- Numeric value of a decimal digit character. -/
def digitVal (c : Char) : Nat := c.toNat - 48

/-- Decimal rendering, fuel-based recursion (the fuel bounds the number of
    divisions by 10; `fuel := n` is always enough). -/
def natDigitsAux : Nat → Nat → List Char
  | 0, n => [digitChar n]
  | fuel + 1, n =>
    if n < 10 then [digitChar n]
    else natDigitsAux fuel (n / 10) ++ [digitChar (n % 10)]

/-- Decimal rendering of a natural number, most significant digit first
    (Python `str(n)` / `f"{n}"` for a non-negative int). -/
def natDigits (n : Nat) : List Char := natDigitsAux n n

/-- Value of a digit string read back as a natural number. -/
def decVal (l : List Char) : Nat := l.foldl (fun a c => 10 * a + digitVal c) 0

/-- Python format `f"{n:03d}"`: the decimal rendering left-padded with
    zeros to width 3. -/
def pad3 (n : Nat) : List Char :=
  if n < 10 then '0' :: '0' :: natDigits n
  else if n < 100 then '0' :: natDigits n
  else natDigits n

/-- Decimal rendering as a string. -/
def natStr (n : Nat) : String := String.mk (natDigits n)

theorem digitVal_digitChar {d : Nat} (h : d < 10) : digitVal (digitChar d) = d := by
  interval_cases d <;> decide

theorem decVal_cons_zero (l : List Char) : decVal ('0' :: l) = decVal l := by
  simp [decVal, List.foldl_cons, digitVal]

theorem decVal_natDigitsAux :
    ∀ (fuel n : Nat), n ≤ fuel → decVal (natDigitsAux fuel n) = n
  | 0, n, h => by
    have : n = 0 := by omega
    subst this
    decide
  | fuel + 1, n, h => by
    rw [natDigitsAux]
    by_cases h10 : n < 10
    · simp only [h10, if_true]
      simp [decVal, digitVal_digitChar h10]
    · simp only [h10, if_false]
      have hle : n / 10 ≤ fuel := by
        have := Nat.div_lt_self (show 0 < n by omega) (show 1 < 10 by omega)
        omega
      have ih := decVal_natDigitsAux fuel (n / 10) hle
      simp only [decVal, List.foldl_append, List.foldl_cons, List.foldl_nil] at ih ⊢
      rw [ih, digitVal_digitChar (Nat.mod_lt n (by omega))]
      omega

theorem decVal_natDigits (n : Nat) : decVal (natDigits n) = n :=
  decVal_natDigitsAux n n (Nat.le_refl n)

theorem decVal_pad3 (n : Nat) : decVal (pad3 n) = n := by
  unfold pad3
  by_cases h1 : n < 10
  · simp [h1, decVal_cons_zero, decVal_natDigits]
  · by_cases h2 : n < 100
    · simp [h1, h2, decVal_cons_zero, decVal_natDigits]
    · simp [h1, h2, decVal_natDigits]

theorem pad3_injective {m n : Nat} (h : pad3 m = pad3 n) : m = n := by
  have := congrArg decVal h
  rwa [decVal_pad3, decVal_pad3] at this

theorem natDigits_injective {m n : Nat} (h : natDigits m = natDigits n) : m = n := by
  have := congrArg decVal h
  rwa [decVal_natDigits, decVal_natDigits] at this

/-! ## Filename normalization (`EPUBFixer.normalize_filename`) -/

/-- Does `pat` occur at the head of `l`? -/
def occursAt : List Char → List Char → Bool
  | [], _ => true
  | _ :: _, [] => false
  | p :: ps, c :: cs => p == c && occursAt ps cs

/-- Left-to-right, non-overlapping replacement of every occurrence of `pat`
    by `repl` (Python `str.replace` for a non-empty pattern); the fuel is
    the length of the scanned list. -/
def replaceAllAux (pat repl : List Char) : Nat → List Char → List Char
  | _, [] => []
  | 0, l => l
  | fuel + 1, c :: cs =>
    if occursAt pat (c :: cs) then repl ++ replaceAllAux pat repl fuel ((c :: cs).drop pat.length)
    else c :: replaceAllAux pat repl fuel cs

/-- Python `s.replace(pat, repl)` for a non-empty pattern. -/
def strReplace (s pat repl : String) : String :=
  String.mk (replaceAllAux pat.data repl.data s.data.length s.data)

/-- Collapse every run of consecutive hyphens to a single hyphen
    (the effect of `re.sub('-+', '-', name)`). -/
def collapseHyphens : List Char → List Char
  | [] => []
  | [c] => [c]
  | c :: c2 :: cs =>
    if c == '-' && c2 == '-' then collapseHyphens (c2 :: cs)
    else c :: collapseHyphens (c2 :: cs)

/-- `EPUBFixer.normalize_filename`: strip the `_final` suffix marker,
    lower-case, replace spaces by hyphens, collapse hyphen runs, then apply
    the fixed table of literal substring replacements. -/
def normalize_filename (filename : String) : String :=
  let name := strReplace filename "_final" ""
  let name := String.mk (name.data.map Char.toLower)
  let name := strReplace name " " "-"
  let name := String.mk (collapseHyphens name.data)
  let name := strReplace name "continuedlearningcommitment-2" "continued-learning-commitment"
  let name := strReplace name "affirmationsclose" "affirmations-close"
  let name := strReplace name "selfcarejournal" "self-care-journal"
  let name := strReplace name "journalpage" "journal-page"
  let name := strReplace name "professionaldevelopment" "professional-development"
  let name := strReplace name "affirmationodyssey" "affirmation-odyssey"
  name

/-- C4: `normalize_filename` is a pure deterministic function (equal inputs
    give equal outputs), and on the input "My File_final.xhtml" it returns
    exactly "my-file.xhtml". -/
theorem normalize_filename_deterministic_and_example :
    (∀ s t : String, s = t → normalize_filename s = normalize_filename t) ∧
    normalize_filename "My File_final.xhtml" = "my-file.xhtml" :=
  ⟨fun _ _ h => congrArg normalize_filename h, by decide⟩

/-- Witness for C4 at the concrete input of the claim. -/
theorem normalize_filename_deterministic_and_example_witness :
    normalize_filename "My File_final.xhtml" = normalize_filename "My File_final.xhtml" ∧
    normalize_filename "My File_final.xhtml" = "my-file.xhtml" :=
  ⟨normalize_filename_deterministic_and_example.1 "My File_final.xhtml" "My File_final.xhtml" rfl,
   normalize_filename_deterministic_and_example.2⟩

/-! ## Manifest generation (`EPUBFixer.generate_content_opf`)

The generator enumerates the four typed subdirectories of `OEBPS` and,
for each file, emits one `<item>` with a sequential identifier scoped by
type (`text001`, `css1`, `font1`, `img1`, ...); the spine then lists one
`<itemref>` per text file, with the same identifiers in the same order.
Only text files are sorted (`sorted(list((oebps_dir / 'text').glob(...)))`). -/

/-- One `<item>` entry of the generated `content.opf` manifest. -/
structure ManifestItem where
  id : String
  href : String
  mediaType : String
deriving DecidableEq

/-- Insert a string into a sorted list (helper for `sortStrings`). -/
def insertSorted (a : String) : List String → List String
  | [] => [a]
  | b :: bs => if a ≤ b then a :: b :: bs else b :: insertSorted a bs

/-- Python `sorted` on filenames (lexicographic insertion sort). -/
def sortStrings : List String → List String
  | [] => []
  | a :: as => insertSorted a (sortStrings as)

/-- Identifier `f"text{i+1:03d}"` of the i-th (0-based) sorted text file. -/
def textId (i : Nat) : String := String.mk (['t', 'e', 'x', 't'] ++ pad3 (i + 1))

/-- Identifier `f"css{i+1}"` of the i-th stylesheet. -/
def cssId (i : Nat) : String := String.mk (['c', 's', 's'] ++ natDigits (i + 1))

/-- Identifier `f"font{i+1}"` of the i-th font file. -/
def fontId (i : Nat) : String := String.mk (['f', 'o', 'n', 't'] ++ natDigits (i + 1))

/-- Identifier `f"img{i+1}"` of the i-th image file. -/
def imgId (i : Nat) : String := String.mk (['i', 'm', 'g'] ++ natDigits (i + 1))

/-- Media type of an image file:
    `'image/jpeg' if img_file.suffix.lower() in ['.jpg', '.jpeg'] else 'image/png'`,
    rendered as a case-insensitive check that the name ends in `.jpg`/`.jpeg`. -/
def imageMediaType (name : String) : String :=
  let lower : List Char := name.data.map Char.toLower
  if occursAt ['g', 'p', 'j', '.'] lower.reverse || occursAt ['g', 'e', 'p', 'j', '.'] lower.reverse
  then "image/jpeg" else "image/png"

/-- Manifest items for the sorted text files. -/
def textItems (texts : List String) : List ManifestItem :=
  (sortStrings texts).enum.map fun p => ⟨textId p.1, "text/" ++ p.2, "application/xhtml+xml"⟩

/-- Manifest items for the stylesheets. -/
def cssItems (css : List String) : List ManifestItem :=
  css.enum.map fun p => ⟨cssId p.1, "styles/" ++ p.2, "text/css"⟩

/-- Manifest items for the fonts. -/
def fontItems (fonts : List String) : List ManifestItem :=
  fonts.enum.map fun p => ⟨fontId p.1, "fonts/" ++ p.2, "font/woff2"⟩

/-- Manifest items for the images. -/
def imgItems (imgs : List String) : List ManifestItem :=
  imgs.enum.map fun p => ⟨imgId p.1, "images/" ++ p.2, imageMediaType p.2⟩

/-- The manifest of `content.opf` as generated by
    `EPUBFixer.generate_content_opf`: text, then styles, then fonts, then
    images, with per-type sequential identifiers. -/
def buildManifest (texts css fonts imgs : List String) : List ManifestItem :=
  textItems texts ++ cssItems css ++ fontItems fonts ++ imgItems imgs

/-- The spine of `content.opf`: one `<itemref idref="text{i+1:03d}"/>` per
    sorted text file, in the same enumeration order as the manifest. -/
def spineIdrefs (texts : List String) : List String :=
  (sortStrings texts).enum.map fun p => textId p.1

theorem ne_of_headChar {s t : String} (h : s.data.head? ≠ t.data.head?) : s ≠ t :=
  fun he => h (congrArg (fun u => u.data.head?) he)

theorem head_textId (i : Nat) : (textId i).data.head? = some 't' := rfl

theorem head_cssId (i : Nat) : (cssId i).data.head? = some 'c' := rfl

theorem head_fontId (i : Nat) : (fontId i).data.head? = some 'f' := rfl

theorem head_imgId (i : Nat) : (imgId i).data.head? = some 'i' := rfl

theorem textId_injective : Function.Injective textId := by
  intro i j h
  have h2 : ['t', 'e', 'x', 't'] ++ pad3 (i + 1) = ['t', 'e', 'x', 't'] ++ pad3 (j + 1) :=
    congrArg String.data h
  have h3 := List.append_cancel_left h2
  have := pad3_injective h3
  omega

theorem cssId_injective : Function.Injective cssId := by
  intro i j h
  have h2 : ['c', 's', 's'] ++ natDigits (i + 1) = ['c', 's', 's'] ++ natDigits (j + 1) :=
    congrArg String.data h
  have := natDigits_injective (List.append_cancel_left h2)
  omega

theorem fontId_injective : Function.Injective fontId := by
  intro i j h
  have h2 : ['f', 'o', 'n', 't'] ++ natDigits (i + 1) = ['f', 'o', 'n', 't'] ++ natDigits (j + 1) :=
    congrArg String.data h
  have := natDigits_injective (List.append_cancel_left h2)
  omega

theorem imgId_injective : Function.Injective imgId := by
  intro i j h
  have h2 : ['i', 'm', 'g'] ++ natDigits (i + 1) = ['i', 'm', 'g'] ++ natDigits (j + 1) :=
    congrArg String.data h
  have := natDigits_injective (List.append_cancel_left h2)
  omega

theorem ids_textItems (texts : List String) :
    (textItems texts).map ManifestItem.id = (List.range (sortStrings texts).length).map textId := by
  simp [textItems, List.map_map]
  rw [← List.enum_map_fst (sortStrings texts), List.map_map]
  rfl

theorem ids_cssItems (css : List String) :
    (cssItems css).map ManifestItem.id = (List.range css.length).map cssId := by
  simp [cssItems, List.map_map]
  rw [← List.enum_map_fst css, List.map_map]
  rfl

theorem ids_fontItems (fonts : List String) :
    (fontItems fonts).map ManifestItem.id = (List.range fonts.length).map fontId := by
  simp [fontItems, List.map_map]
  rw [← List.enum_map_fst fonts, List.map_map]
  rfl

theorem ids_imgItems (imgs : List String) :
    (imgItems imgs).map ManifestItem.id = (List.range imgs.length).map imgId := by
  simp [imgItems, List.map_map]
  rw [← List.enum_map_fst imgs, List.map_map]
  rfl

theorem nodup_map_range {f : Nat → String} (hf : Function.Injective f) (n : Nat) :
    ((List.range n).map f).Nodup :=
  (List.nodup_range n).map hf

theorem disjointAppend {α : Type} {l1 l2 l : List α} (h1 : l1.Disjoint l) (h2 : l2.Disjoint l) :
    (l1 ++ l2).Disjoint l :=
  fun _ ha hb => (List.mem_append.1 ha).elim (fun h => h1 h hb) (fun h => h2 h hb)

theorem disjoint_map_range (f g : Nat → String) (h : ∀ i j, f i ≠ g j) (m n : Nat) :
    List.Disjoint ((List.range m).map f) ((List.range n).map g) := by
  intro a ha hb
  simp only [List.mem_map] at ha hb
  obtain ⟨i, _, rfl⟩ := ha
  obtain ⟨j, _, hj⟩ := hb
  exact h i j hj.symm

/-- C6: all identifiers of a generated manifest are pairwise distinct,
    whatever the contents of the four typed subdirectories. -/
theorem buildManifest_ids_nodup (texts css fonts imgs : List String) :
    ((buildManifest texts css fonts imgs).map ManifestItem.id).Nodup := by
  simp only [buildManifest, List.map_append]
  rw [ids_textItems, ids_cssItems, ids_fontItems, ids_imgItems]
  have nT := nodup_map_range textId_injective (sortStrings texts).length
  have nC := nodup_map_range cssId_injective css.length
  have nF := nodup_map_range fontId_injective fonts.length
  have nI := nodup_map_range imgId_injective imgs.length
  have dTC := disjoint_map_range textId cssId
    (fun i j => ne_of_headChar (by rw [head_textId, head_cssId]; decide))
    (sortStrings texts).length css.length
  have dTF := disjoint_map_range textId fontId
    (fun i j => ne_of_headChar (by rw [head_textId, head_fontId]; decide))
    (sortStrings texts).length fonts.length
  have dTI := disjoint_map_range textId imgId
    (fun i j => ne_of_headChar (by rw [head_textId, head_imgId]; decide))
    (sortStrings texts).length imgs.length
  have dCF := disjoint_map_range cssId fontId
    (fun i j => ne_of_headChar (by rw [head_cssId, head_fontId]; decide))
    css.length fonts.length
  have dCI := disjoint_map_range cssId imgId
    (fun i j => ne_of_headChar (by rw [head_cssId, head_imgId]; decide))
    css.length imgs.length
  have dFI := disjoint_map_range fontId imgId
    (fun i j => ne_of_headChar (by rw [head_fontId, head_imgId]; decide))
    fonts.length imgs.length
  exact ((nT.append nC dTC).append nF (disjointAppend dTF dCF)).append nI
    (disjointAppend (disjointAppend dTI dCI) dFI)

theorem filterAll {α : Type} (p : α → Bool) :
    ∀ l : List α, (∀ a ∈ l, p a = true) → l.filter p = l
  | [], _ => rfl
  | a :: as, h => by
    simp only [List.filter_cons, h a (List.mem_cons_self a as), if_true]
    rw [filterAll p as (fun b hb => h b (List.mem_cons_of_mem a hb))]

theorem filterNone {α : Type} (p : α → Bool) :
    ∀ l : List α, (∀ a ∈ l, p a = false) → l.filter p = []
  | [], _ => rfl
  | a :: as, h => by
    simp only [List.filter_cons, h a (List.mem_cons_self a as), Bool.false_eq_true, if_false]
    exact filterNone p as fun b hb => h b (List.mem_cons_of_mem a hb)

theorem imageMediaType_not_xhtml (n : String) :
    (imageMediaType n == "application/xhtml+xml") = false := by
  simp only [imageMediaType]
  split <;> rfl

/-- C7: the spine declared by `generate_content_opf` consists of exactly the
    document-type (`application/xhtml+xml`) manifest items, one `itemref`
    per text item, with the same identifiers in the same (sorted)
    enumeration order as the manifest. -/
theorem spine_is_text_items_in_order (texts css fonts imgs : List String) :
    spineIdrefs texts
      = ((buildManifest texts css fonts imgs).filter
          (fun it => it.mediaType == "application/xhtml+xml")).map ManifestItem.id := by
  have hT : (textItems texts).filter (fun it => it.mediaType == "application/xhtml+xml")
      = textItems texts := by
    apply filterAll
    intro a ha
    obtain ⟨p, _, rfl⟩ := List.mem_map.1 ha
    rfl
  have hC : (cssItems css).filter (fun it => it.mediaType == "application/xhtml+xml") = [] := by
    apply filterNone
    intro a ha
    obtain ⟨p, _, rfl⟩ := List.mem_map.1 ha
    rfl
  have hF : (fontItems fonts).filter (fun it => it.mediaType == "application/xhtml+xml") = [] := by
    apply filterNone
    intro a ha
    obtain ⟨p, _, rfl⟩ := List.mem_map.1 ha
    rfl
  have hI : (imgItems imgs).filter (fun it => it.mediaType == "application/xhtml+xml") = [] := by
    apply filterNone
    intro a ha
    obtain ⟨p, _, rfl⟩ := List.mem_map.1 ha
    exact imageMediaType_not_xhtml _
  simp only [buildManifest, List.filter_append, hT, hC, hF, hI, List.append_nil]
  simp only [textItems, spineIdrefs, List.map_map]
  rfl

/-! ## Tree organization (`EPUBFixer.organize_epub_structure`)

The organizer runs four glob loops over the flat project directory
(`*.xhtml` → `OEBPS/text`, `*.css` → `OEBPS/styles`, `*.woff2` →
`OEBPS/fonts`, image extensions → `OEBPS/images`); each file is copied with
`shutil.copy2` only when its destination does not already exist
(`if not dest.exists()`).  The destination tree is modelled as an
association list from relative destination path to file content. -/

/-- Kind of a recognized content file in the flat project directory
    (which glob pattern picks it up). -/
inductive AssetKind
  | xhtml
  | css
  | woff2
  | image
deriving DecidableEq

/-- Typed destination subdirectory under `OEBPS` for each kind. -/
def destSubdir : AssetKind → String
  | .xhtml => "text"
  | .css => "styles"
  | .woff2 => "fonts"
  | .image => "images"

/-- A source file of the flat project directory. -/
structure SrcAsset where
  name : String
  kind : AssetKind
  content : Nat
deriving DecidableEq

/-- Relative destination path of a source file under `OEBPS`. -/
def destPath (f : SrcAsset) : String := destSubdir f.kind ++ "/" ++ f.name

/-- `if not dest.exists(): shutil.copy2(src, dest)`: copy a file into the
    destination tree only when the destination path is absent. -/
def copyIfAbsent (d : List (String × Nat)) (key : String) (c : Nat) : List (String × Nat) :=
  if (d.lookup key).isSome then d else d ++ [(key, c)]

/-- One glob loop of `organize_epub_structure`. -/
def copyAll (src : List SrcAsset) (d : List (String × Nat)) : List (String × Nat) :=
  src.foldl (fun acc f => copyIfAbsent acc (destPath f) f.content) d

/-- `EPUBFixer.organize_epub_structure`: the four glob loops in source
    order (xhtml, then css, then woff2, then images). -/
def organize_epub_structure (src : List SrcAsset) (d : List (String × Nat)) :
    List (String × Nat) :=
  copyAll (src.filter (fun f => f.kind == AssetKind.image))
    (copyAll (src.filter (fun f => f.kind == AssetKind.woff2))
      (copyAll (src.filter (fun f => f.kind == AssetKind.css))
        (copyAll (src.filter (fun f => f.kind == AssetKind.xhtml)) d)))

theorem lookup_append_one {k : String} {c : Nat} :
    ∀ (d : List (String × Nat)) (x : String × Nat),
      d.lookup k = some c → (d ++ [x]).lookup k = some c
  | [], _, h => by simp [List.lookup] at h
  | a :: as, x, h => by
    rw [List.cons_append]
    simp only [List.lookup] at h ⊢
    cases hk : (k == a.1) with
    | true => rw [hk] at h; simpa using h
    | false =>
      rw [hk] at h
      simp only []
      exact lookup_append_one as x h

theorem lookup_copyIfAbsent {d : List (String × Nat)} {k : String} {c : Nat}
    (key : String) (c' : Nat) (h : d.lookup k = some c) :
    (copyIfAbsent d key c').lookup k = some c := by
  unfold copyIfAbsent
  split
  · exact h
  · exact lookup_append_one d (key, c') h

theorem pres_copyIfAbsent {d : List (String × Nat)} {k : String}
    (key : String) (c' : Nat) (h : (d.lookup k).isSome) :
    ((copyIfAbsent d key c').lookup k).isSome := by
  obtain ⟨c, hc⟩ := Option.isSome_iff_exists.1 h
  rw [lookup_copyIfAbsent key c' hc]
  rfl

theorem lookup_append_self (key : String) (c : Nat) :
    ∀ d : List (String × Nat), ((d ++ [(key, c)]).lookup key).isSome
  | [] => by simp [List.lookup]
  | a :: as => by
    rw [List.cons_append]
    simp only [List.lookup]
    cases hk : (key == a.1) with
    | true => simp
    | false => exact lookup_append_self key c as

theorem pres_copyIfAbsent_self (d : List (String × Nat)) (key : String) (c : Nat) :
    ((copyIfAbsent d key c).lookup key).isSome := by
  unfold copyIfAbsent
  split
  · assumption
  · exact lookup_append_self key c d

theorem copyIfAbsent_of_pres {d : List (String × Nat)} {key : String} (c : Nat)
    (h : (d.lookup key).isSome) : copyIfAbsent d key c = d := by
  unfold copyIfAbsent
  rw [if_pos h]

theorem lookup_copyAll {k : String} {c : Nat} :
    ∀ (src : List SrcAsset) (d : List (String × Nat)),
      d.lookup k = some c → (copyAll src d).lookup k = some c
  | [], _, h => h
  | f :: fs, d, h =>
    lookup_copyAll fs (copyIfAbsent d (destPath f) f.content)
      (lookup_copyIfAbsent (destPath f) f.content h)

theorem pres_copyAll {k : String} :
    ∀ (src : List SrcAsset) (d : List (String × Nat)),
      (d.lookup k).isSome → ((copyAll src d).lookup k).isSome := by
  intro src d h
  obtain ⟨c, hc⟩ := Option.isSome_iff_exists.1 h
  rw [lookup_copyAll src d hc]
  rfl

theorem pres_copyAll_mem :
    ∀ (src : List SrcAsset) (d : List (String × Nat)) (f : SrcAsset), f ∈ src →
      (((copyAll src d).lookup (destPath f)).isSome) := by
  intro src
  induction src with
  | nil => intro d f hf; cases hf
  | cons g gs ih =>
    intro d f hf
    rcases List.mem_cons.1 hf with h | h
    · subst h
      exact pres_copyAll gs _ (pres_copyIfAbsent_self d (destPath f) f.content)
    · exact ih _ f h

theorem copyAll_of_pres :
    ∀ (src : List SrcAsset) (d : List (String × Nat)),
      (∀ f ∈ src, ((d.lookup (destPath f)).isSome)) → copyAll src d = d
  | [], _, _ => rfl
  | f :: fs, d, h => by
    show copyAll fs (copyIfAbsent d (destPath f) f.content) = d
    rw [copyIfAbsent_of_pres f.content (h f (List.mem_cons_self f fs))]
    exact copyAll_of_pres fs d fun g hg => h g (List.mem_cons_of_mem f hg)

theorem pres_organize {k : String} (src : List SrcAsset) (d : List (String × Nat))
    (h : (d.lookup k).isSome) :
    ((organize_epub_structure src d).lookup k).isSome :=
  pres_copyAll _ _ (pres_copyAll _ _ (pres_copyAll _ _ (pres_copyAll _ _ h)))

theorem pres_organize_mem (src : List SrcAsset) (d : List (String × Nat)) :
    ∀ f ∈ src, (((organize_epub_structure src d).lookup (destPath f)).isSome) := by
  intro f hf
  have hx : f.kind = AssetKind.xhtml ∨ f.kind = AssetKind.css ∨
      f.kind = AssetKind.woff2 ∨ f.kind = AssetKind.image := by
    cases f.kind <;> simp
  rcases hx with h | h | h | h
  · exact pres_copyAll _ _ (pres_copyAll _ _ (pres_copyAll _ _
      (pres_copyAll_mem _ _ f (List.mem_filter.2 ⟨hf, by simp [h]⟩))))
  · exact pres_copyAll _ _ (pres_copyAll _ _
      (pres_copyAll_mem _ _ f (List.mem_filter.2 ⟨hf, by simp [h]⟩)))
  · exact pres_copyAll _ _
      (pres_copyAll_mem _ _ f (List.mem_filter.2 ⟨hf, by simp [h]⟩))
  · exact pres_copyAll_mem _ _ f (List.mem_filter.2 ⟨hf, by simp [h]⟩)

/-- C5: running `organize_epub_structure` twice leaves the destination tree
    identical to running it once, and a file already present at a
    destination path is never overwritten (its content is preserved). -/
theorem organize_idempotent_and_never_overwrites (src : List SrcAsset)
    (d : List (String × Nat)) :
    organize_epub_structure src (organize_epub_structure src d)
        = organize_epub_structure src d ∧
    ∀ k c, d.lookup k = some c → (organize_epub_structure src d).lookup k = some c := by
  constructor
  · have hall : ∀ sub : List SrcAsset, (∀ f ∈ sub, f ∈ src) →
        copyAll sub (organize_epub_structure src d) = organize_epub_structure src d := by
      intro sub hsub
      exact copyAll_of_pres sub _ fun f hf => pres_organize_mem src d f (hsub f hf)
    show copyAll _ (copyAll _ (copyAll _ (copyAll _ (organize_epub_structure src d))))
        = organize_epub_structure src d
    rw [hall _ (fun f hf => (List.mem_filter.1 hf).1),
      hall _ (fun f hf => (List.mem_filter.1 hf).1),
      hall _ (fun f hf => (List.mem_filter.1 hf).1),
      hall _ (fun f hf => (List.mem_filter.1 hf).1)]
  · intro k c h
    exact lookup_copyAll _ _ (lookup_copyAll _ _ (lookup_copyAll _ _ (lookup_copyAll _ _ h)))

/-- Witness for C5: a concrete one-file source directory and a destination
    tree that already contains that file with different content. -/
theorem organize_idempotent_and_never_overwrites_witness :
    organize_epub_structure [⟨"a.xhtml", AssetKind.xhtml, 1⟩]
        (organize_epub_structure [⟨"a.xhtml", AssetKind.xhtml, 1⟩] [("text/a.xhtml", 7)])
      = organize_epub_structure [⟨"a.xhtml", AssetKind.xhtml, 1⟩] [("text/a.xhtml", 7)] ∧
    (organize_epub_structure [⟨"a.xhtml", AssetKind.xhtml, 1⟩]
        [("text/a.xhtml", 7)]).lookup "text/a.xhtml" = some 7 :=
  ⟨(organize_idempotent_and_never_overwrites [⟨"a.xhtml", AssetKind.xhtml, 1⟩]
      [("text/a.xhtml", 7)]).1,
   (organize_idempotent_and_never_overwrites [⟨"a.xhtml", AssetKind.xhtml, 1⟩]
      [("text/a.xhtml", 7)]).2 "text/a.xhtml" 7 (by decide)⟩

/-! ## Manifest and spine audit (`ManifestAuditor`)

`audit` appends the critical error and returns `False` when
`OEBPS/content.opf` does not exist; otherwise it runs
`check_manifest_files`, `check_orphan_files` and `check_spine_integrity`
(which all append into the single `self.issues` list, in that order) and
returns `len(self.issues) == 0`. -/

/-- A single-quote character, used inside audit messages. -/
def squote : String := String.mk [Char.ofNat 39]

/-- What the auditor sees: whether `OEBPS/content.opf` exists, the files
    present under `OEBPS` (relative paths as enumerated by `os.walk`,
    excluding `content.opf` itself), and the parsed manifest (`(id, href)`
    pairs in document order) and spine (idrefs in order). -/
structure PackageTree where
  opfExists : Bool
  files : List String
  manifest : List (String × String)
  spine : List String
deriving DecidableEq

/-- `check_manifest_files`: one defect per manifest item whose href does
    not resolve to an existing file. -/
def missingFiles (t : PackageTree) : List String :=
  (t.manifest.filter (fun it => !(t.files.contains it.2))).map
    (fun it => "Missing: " ++ it.2 ++ " (referenced in manifest)")

/-- `check_orphan_files`: files present on disk but absent from the set of
    manifest hrefs. -/
def orphanFiles (t : PackageTree) : List String :=
  t.files.filter (fun f => !((t.manifest.map Prod.snd).contains f))

/-- `check_orphan_files` appends a single summary issue when any orphan
    exists. -/
def orphanIssues (t : PackageTree) : List String :=
  if orphanFiles t = [] then []
  else ["Found " ++ natStr (orphanFiles t).length ++ " orphan files not in manifest"]

/-- The `manifest_ids` dictionary (id → href); a Python dict comprehension
    keeps the last binding of a duplicated key. -/
def manifestDict (t : PackageTree) (idref : String) : Option String :=
  t.manifest.reverse.lookup idref

/-- `check_spine_integrity`, first loop: spine items whose idref is not a
    manifest id. -/
def spineResolutionIssues (t : PackageTree) : List String :=
  (t.spine.enum.filter (fun p => !(manifestDict t p.2).isSome)).map
    (fun p => "Spine item " ++ natStr (p.1 + 1) ++ ": ID " ++ squote ++ p.2 ++ squote
      ++ " not found in manifest")

/-- The leading ordinal parsed out of a spine href: the href must start
    with `text/` followed by a digit, and the number is
    `int(href.split('-')[0][5:])`, unparsed when `int` raises.  (For an
    href that is exactly `"text/"`, `href[5]` would raise `IndexError` in
    Python; such an href never occurs in a generated package and is
    treated as unparsed here.) -/
def parseOrdinal (href : String) : Option Nat :=
  let cs := href.data
  if (cs.take 5 == ['t', 'e', 'x', 't', '/']) && (cs.getD 5 ' ').isDigit then
    let seg := (cs.takeWhile (fun c => c != '-')).drop 5
    if !seg.isEmpty && seg.all Char.isDigit then some (decVal seg) else none
  else none

/-- One step of the reading-order loop: compare the parsed ordinal with the
    baseline, record a defect on a decrease, and always update the baseline
    (`prev_num = file_num`) to the current ordinal. -/
def roStep (acc : List String × Nat) (href : String) : List String × Nat :=
  match parseOrdinal href with
  | none => acc
  | some n =>
    (if n < acc.2 then
        acc.1 ++ ["Reading order issue: " ++ href ++ " (#" ++ natStr n ++ ") after #"
          ++ natStr acc.2]
      else acc.1, n)

/-- `check_spine_integrity`, second loop: the hrefs of resolvable spine
    items, scanned left to right with initial baseline `prev_num = 0`. -/
def readingOrderIssues (t : PackageTree) : List String :=
  ((t.spine.filterMap (manifestDict t)).foldl roStep ([], 0)).1

/-- Everything `ManifestAuditor.audit` accumulates into `self.issues`:
    a single critical error when `content.opf` is missing (the three checks
    are then never run), otherwise the defects of the three checks in
    execution order. -/
def auditIssues (t : PackageTree) : List String :=
  if t.opfExists then
    missingFiles t ++ orphanIssues t ++ spineResolutionIssues t ++ readingOrderIssues t
  else ["CRITICAL: content.opf not found"]

/-- `ManifestAuditor.audit`'s boolean verdict: `len(self.issues) == 0`. -/
def audit (t : PackageTree) : Bool := (auditIssues t).length == 0

/-- A tree with no missing file, no spine defect of any kind, and one
    orphan (`orphan.css` on disk but not in the manifest). -/
def orphanOnlyTree : PackageTree :=
  ⟨true, ["text/a.xhtml", "orphan.css"], [("text001", "text/a.xhtml")], ["text001"]⟩

/-- The same tree without the orphan file. -/
def orphanFreeTree : PackageTree :=
  ⟨true, ["text/a.xhtml"], [("text001", "text/a.xhtml")], ["text001"]⟩

/-- C1 counterexample: a tree whose missing-file and spine-issue defect
    lists are empty (even the reading-order list is empty) but whose audit
    returns `false` because of a single orphan file — the orphan does
    change the verdict, refuting the claimed equivalence. -/
theorem audit_orphan_changes_verdict :
    missingFiles orphanOnlyTree = [] ∧
    spineResolutionIssues orphanOnlyTree = [] ∧
    readingOrderIssues orphanOnlyTree = [] ∧
    orphanFiles orphanOnlyTree = ["orphan.css"] ∧
    audit orphanOnlyTree = false ∧
    audit orphanFreeTree = true := by decide

/-- C1 (amended): when the manifest document exists, the audit passes iff
    all four defect collections — missing files, the orphan summary, spine
    resolution defects, and reading-order defects — are empty; orphan files
    (and reading-order anomalies) therefore do affect the verdict. -/
theorem audit_pass_iff_all_empty (t : PackageTree) (h : t.opfExists = true) :
    audit t = true ↔
      (missingFiles t = [] ∧ orphanIssues t = [] ∧
        spineResolutionIssues t = [] ∧ readingOrderIssues t = []) := by
  unfold audit auditIssues
  rw [h]
  simp [List.append_eq_nil]

/-- Witness for the amended C1 at a concrete defect-free tree. -/
theorem audit_pass_iff_all_empty_witness : audit orphanFreeTree = true :=
  (audit_pass_iff_all_empty orphanFreeTree rfl).2 (by decide)

/-- A tree without a manifest document, whose manifest data would produce
    structural defects if the checks ran. -/
def noOpfTree : PackageTree :=
  ⟨false, [], [("id1", "ghost.xhtml")], ["unresolved-id"]⟩

/-- C2: when `content.opf` does not exist the audit reports exactly one
    top-level critical cannot-run error — the three structural checks are
    never run, so no structural defect is mixed into the collection — and
    returns failure. -/
theorem audit_missing_opf (t : PackageTree) (h : t.opfExists = false) :
    auditIssues t = ["CRITICAL: content.opf not found"] ∧ audit t = false := by
  unfold audit auditIssues
  rw [h]
  exact ⟨rfl, rfl⟩

/-- Witness for C2: a tree whose manifest data would yield missing-file and
    unresolvable-idref defects, yet the only reported issue is the single
    critical error. -/
theorem audit_missing_opf_witness :
    auditIssues noOpfTree = ["CRITICAL: content.opf not found"] ∧ audit noOpfTree = false :=
  audit_missing_opf noOpfTree rfl

/-- The tree of the C9 scenario: spine `[text001, text003, text002]` with
    filename ordinals 1, 3, 2, all idrefs resolvable, all files present. -/
def spineOrder132Tree : PackageTree :=
  ⟨true,
    ["text/1-a.xhtml", "text/2-b.xhtml", "text/3-c.xhtml"],
    [("text001", "text/1-a.xhtml"), ("text002", "text/2-b.xhtml"),
      ("text003", "text/3-c.xhtml")],
    ["text001", "text003", "text002"]⟩

/-- C9: on a spine whose resolvable hrefs carry ordinals 1, 3, 2, the audit
    reports exactly one reading-order defect (the drop from 3 to 2) and the
    hard-defect checks pass (no missing file, no unresolvable idref). -/
theorem audit_spine_order_132 :
    missingFiles spineOrder132Tree = [] ∧
    spineResolutionIssues spineOrder132Tree = [] ∧
    readingOrderIssues spineOrder132Tree
      = ["Reading order issue: text/2-b.xhtml (#2) after #3"] := by decide

/-- The tree of the C10 scenario: spine ordinals 3, 1, 2. -/
def spineOrder312Tree : PackageTree :=
  ⟨true,
    ["text/1-y.xhtml", "text/2-z.xhtml", "text/3-x.xhtml"],
    [("a", "text/3-x.xhtml"), ("b", "text/1-y.xhtml"), ("c", "text/2-z.xhtml")],
    ["a", "b", "c"]⟩

/-- C10: each ordinal is compared only against the most recently parsed
    ordinal, and the baseline is updated to the current ordinal even right
    after a reported decrease; hence spine ordinals 3, 1, 2 yield exactly
    one reading-order defect (the 3-to-1 drop), not one per item below the
    running maximum. -/
theorem reading_order_baseline_updates :
    (∀ (acc : List String × Nat) (href : String) (n : Nat),
        parseOrdinal href = some n → (roStep acc href).2 = n) ∧
    readingOrderIssues spineOrder312Tree
      = ["Reading order issue: text/1-y.xhtml (#1) after #3"] := by
  constructor
  · intro acc href n h
    unfold roStep
    rw [h]
  · decide

/-- Witness for C10: the baseline-update fact applied at a concrete
    accumulator and href, together with the concrete 3,1,2 run. -/
theorem reading_order_baseline_updates_witness :
    (roStep ([], 5) "text/2-z.xhtml").2 = 2 ∧
    readingOrderIssues spineOrder312Tree
      = ["Reading order issue: text/1-y.xhtml (#1) after #3"] :=
  ⟨reading_order_baseline_updates.1 ([], 5) "text/2-z.xhtml" 2 (by decide),
    reading_order_baseline_updates.2⟩

/-! ## Archive packaging (`EPUBFixer.create_epub_package`)

The packager writes `META-INF/container.xml` and the `mimetype` file, then
creates the zip archive and writes: the `mimetype` entry first with
`compress_type=zipfile.ZIP_STORED`, then `META-INF/container.xml`, then
every file under `OEBPS` in walk order (deflated by default).  The whole
body runs inside `try: ... except Exception as e: logger.error(...);
return None` — a raised error is caught and `None` is returned. -/

/-- One entry of the produced zip archive. -/
structure ArchiveEntry where
  arcname : String
  content : String
  deflated : Bool
deriving DecidableEq

/-- A file under `OEBPS` as the packaging walk sees it; `readable = false`
    models an I/O fault raised while writing this entry. -/
structure PkgSrcFile where
  relpath : String
  content : String
  readable : Bool
deriving DecidableEq

/-- The packaging input: possible write faults for the two fixed leading
    entries, and the walked OEBPS files. -/
structure PackInput where
  mimetypeWriteOk : Bool
  containerWriteOk : Bool
  oebpsFiles : List PkgSrcFile
deriving DecidableEq

/-- The fixed `container.xml` written by `create_epub_package`. -/
def containerXml : String :=
  "<?xml version=\"1.0\" encoding=\"UTF-8\"?>\n<container version=\"1.0\" xmlns=\"urn:oasis:names:tc:opendocument:xmlns:container\">\n  <rootfiles>\n    <rootfile full-path=\"OEBPS/content.opf\" media-type=\"application/oebps-package+xml\"/>\n  </rootfiles>\n</container>"

/-- The first, uncompressed archive entry: the mimetype marker. -/
def mimetypeEntry : ArchiveEntry := ⟨"mimetype", "application/epub+zip", false⟩

/-- The second entry: the container descriptor (deflated, like every entry
    other than `mimetype`). -/
def containerEntry : ArchiveEntry := ⟨"META-INF/container.xml", containerXml, true⟩

/-- A zip write that can fail; on failure Python raises. -/
def writeEntry (ok : Bool) (e : ArchiveEntry) : Except String ArchiveEntry :=
  if ok then Except.ok e else Except.error ("error writing " ++ e.arcname)

/-- Write the walked OEBPS files in order, aborting at the first fault. -/
def writeOebps : List PkgSrcFile → Except String (List ArchiveEntry)
  | [] => Except.ok []
  | f :: fs =>
    match writeEntry f.readable ⟨f.relpath, f.content, true⟩ with
    | Except.error e => Except.error e
    | Except.ok entry =>
      match writeOebps fs with
      | Except.error e => Except.error e
      | Except.ok rest => Except.ok (entry :: rest)

/-- The body of the `try` block: the mimetype entry first, then the
    container descriptor, then every OEBPS file. -/
def packageAttempt (inp : PackInput) : Except String (List ArchiveEntry) :=
  match writeEntry inp.mimetypeWriteOk mimetypeEntry with
  | Except.error e => Except.error e
  | Except.ok m =>
    match writeEntry inp.containerWriteOk containerEntry with
    | Except.error e => Except.error e
    | Except.ok c =>
      match writeOebps inp.oebpsFiles with
      | Except.error e => Except.error e
      | Except.ok rest => Except.ok (m :: c :: rest)

/-- Result of a Python call as its caller observes it: a normal return
    value, or a propagated exception. -/
inductive PyResult (α : Type)
  | val : α → PyResult α
  | raised : String → PyResult α
deriving DecidableEq

/-- Did the call propagate an exception to its caller? -/
def PyResult.isRaised {α : Type} : PyResult α → Bool
  | PyResult.val _ => false
  | PyResult.raised _ => true

/-- `EPUBFixer.create_epub_package`: the whole body runs inside
    `try: ... except`, so the caller receives the archive on success and
    `None` on any fault — never a propagated exception. -/
def create_epub_package (inp : PackInput) : PyResult (Option (List ArchiveEntry)) :=
  match packageAttempt inp with
  | Except.ok entries => PyResult.val (some entries)
  | Except.error _ => PyResult.val none

/-- The complete archive produced by a fault-free run. -/
def fullArchive (inp : PackInput) : List ArchiveEntry :=
  mimetypeEntry :: containerEntry ::
    inp.oebpsFiles.map (fun f => ⟨f.relpath, f.content, true⟩)

theorem writeOebps_all_ok :
    ∀ fs : List PkgSrcFile, (∀ f ∈ fs, f.readable = true) →
      writeOebps fs = Except.ok (fs.map fun f => ⟨f.relpath, f.content, true⟩)
  | [], _ => rfl
  | f :: fs, h => by
    simp only [writeOebps, writeEntry, h f (List.mem_cons_self f fs), if_true, List.map_cons]
    rw [writeOebps_all_ok fs fun g hg => h g (List.mem_cons_of_mem f hg)]

theorem writeOebps_fault :
    ∀ fs : List PkgSrcFile, (∃ f ∈ fs, f.readable = false) →
      ∃ e, writeOebps fs = Except.error e := by
  intro fs
  induction fs with
  | nil => rintro ⟨f, hf, _⟩; cases hf
  | cons f fs ih =>
    rintro ⟨g, hg, hgr⟩
    rcases List.mem_cons.1 hg with h | h
    · subst h
      exact ⟨"error writing " ++ g.relpath, by simp [writeOebps, writeEntry, hgr]⟩
    · by_cases hf : f.readable = true
      · obtain ⟨e, he⟩ := ih ⟨g, h, hgr⟩
        exact ⟨e, by simp [writeOebps, writeEntry, hf, he]⟩
      · exact ⟨"error writing " ++ f.relpath,
          by simp [writeOebps, writeEntry, Bool.eq_false_iff.2 hf]⟩

/-- C3 (amended): if writing any entry fails, the whole packaging run
    aborts and the caller receives `None` — the raised error is caught
    inside the function, not propagated — and a non-`None` return is always
    the complete archive, so no partial archive is ever presented as
    successful output. -/
theorem package_abort_on_write_failure (inp : PackInput) :
    ((inp.mimetypeWriteOk = false ∨ inp.containerWriteOk = false ∨
        ∃ f ∈ inp.oebpsFiles, f.readable = false) →
      create_epub_package inp = PyResult.val none) ∧
    (create_epub_package inp = PyResult.val none ∨
      create_epub_package inp = PyResult.val (some (fullArchive inp))) := by
  constructor
  · intro h
    unfold create_epub_package packageAttempt
    rcases h with h | h | h
    · simp [writeEntry, h]
    · cases hm : inp.mimetypeWriteOk <;> simp [writeEntry, h]
    · obtain ⟨e, he⟩ := writeOebps_fault inp.oebpsFiles h
      cases hm : inp.mimetypeWriteOk <;> cases hc : inp.containerWriteOk <;>
        simp [writeEntry, he]
  · by_cases hm : inp.mimetypeWriteOk = true
    · by_cases hc : inp.containerWriteOk = true
      · by_cases hr : ∀ f ∈ inp.oebpsFiles, f.readable = true
        · right
          unfold create_epub_package packageAttempt
          simp [writeEntry, hm, hc, writeOebps_all_ok inp.oebpsFiles hr, fullArchive,
            mimetypeEntry, containerEntry]
        · left
          unfold create_epub_package packageAttempt
          obtain ⟨e, he⟩ := writeOebps_fault inp.oebpsFiles (by
            push_neg at hr
            obtain ⟨f, hf, hfr⟩ := hr
            exact ⟨f, hf, Bool.eq_false_iff.2 hfr⟩)
          simp [writeEntry, hm, hc, he]
      · left
        unfold create_epub_package packageAttempt
        simp [writeEntry, hm, Bool.eq_false_iff.2 hc]
    · left
      unfold create_epub_package packageAttempt
      simp [writeEntry, Bool.eq_false_iff.2 hm]

/-- A packaging input whose only OEBPS entry cannot be written. -/
def badPackInput : PackInput := ⟨true, true, [⟨"OEBPS/text/a.xhtml", "x", false⟩]⟩

/-- C3 counterexample: with a failing entry write the packaging run does
    not abort with a raised error as seen by the caller — the exception is
    caught and `None` is returned as a normal value. -/
theorem package_failure_not_raised :
    (badPackInput.oebpsFiles.any fun f => !f.readable) = true ∧
    (create_epub_package badPackInput).isRaised = false ∧
    create_epub_package badPackInput = PyResult.val none := by decide

/-- Witness for the amended C3 at the concrete failing input. -/
theorem package_abort_on_write_failure_witness :
    create_epub_package badPackInput = PyResult.val none :=
  (package_abort_on_write_failure badPackInput).1
    (Or.inr (Or.inr ⟨⟨"OEBPS/text/a.xhtml", "x", false⟩, by decide, rfl⟩))

/-- C8: every successful packaging run produces exactly the archive whose
    first entry is the mimetype marker — stored uncompressed with literal
    content "application/epub+zip" — followed by the container descriptor
    and then every file under the root. -/
theorem package_mimetype_first (inp : PackInput)
    (h : inp.mimetypeWriteOk = true ∧ inp.containerWriteOk = true ∧
      ∀ f ∈ inp.oebpsFiles, f.readable = true) :
    create_epub_package inp = PyResult.val (some (fullArchive inp)) ∧
    (fullArchive inp).head? = some mimetypeEntry ∧
    mimetypeEntry.deflated = false ∧
    mimetypeEntry.content = "application/epub+zip" := by
  obtain ⟨hm, hc, hr⟩ := h
  refine ⟨?_, rfl, rfl, rfl⟩
  unfold create_epub_package packageAttempt
  simp [writeEntry, hm, hc, writeOebps_all_ok inp.oebpsFiles hr, fullArchive,
    mimetypeEntry, containerEntry]

/-- Witness for C8 at a concrete fault-free input. -/
theorem package_mimetype_first_witness :
    create_epub_package ⟨true, true, [⟨"OEBPS/content.opf", "opf", true⟩]⟩
        = PyResult.val (some (fullArchive ⟨true, true, [⟨"OEBPS/content.opf", "opf", true⟩]⟩)) ∧
    (fullArchive ⟨true, true, [⟨"OEBPS/content.opf", "opf", true⟩]⟩).head?
        = some mimetypeEntry ∧
    mimetypeEntry.deflated = false ∧
    mimetypeEntry.content = "application/epub+zip" :=
  package_mimetype_first ⟨true, true, [⟨"OEBPS/content.opf", "opf", true⟩]⟩
    ⟨rfl, rfl, by decide⟩

end BookFiles
